import Mathlib

/-!
Shallow embedding of the migration-aggregator repository
(src/main.py and src/queries.py) and verification of the frozen claims.

The embedding follows the Python source line by line:

* pglast AST nodes relevant to the claims (ColumnDef, Constraint, table
  element lists) become Lean structures; a table element list is a list of
  `Child` values (columns or top-level constraints).  A Python `None`
  child list is represented by the empty list: every access in the source
  goes through `appended` / `removed_by` / `find_by`, which normalize
  `None` to the empty tuple, so the two are observationally equal.
* The mutable `Repository` dictionary becomes an association list with
  dict semantics (first binding for a key is the live one; assignment to
  an existing key updates it in place, keeping its position).
* In-place mutation of a `Definition` becomes explicit state passing.
  Raised Python exceptions become `Except` / explicit error outcomes,
  and the partially mutated state at the point of an exception is carried
  along where the source makes it observable.
-/

/-- Python exception kinds raised by the code paths under study. -/
inductive PyError
  | valueError
  | keyError
  | attributeError
  | typeError
  deriving DecidableEq, Repr

/-- ConflictBehavior enum from queries.py. -/
inductive ConflictBehavior
  | fail
  | ignore
  | replace
  deriving DecidableEq, Repr

/-- Constraint kinds (pglast nodes.ConstrType), restricted to the members
the source mentions plus a catch-all for every other member. -/
inductive ConstrType
  | primary
  | unique
  | exclusion
  | identity
  | foreign
  | check
  | notnull
  | defaultV
  | otherType
  deriving DecidableEq, Repr

/-- pglast ast.Constraint: optional explicit name, kind, optional raw
expression payload (kept opaque as a string). -/
structure Constraint where
  conname : Option String
  contype : ConstrType
  rawExpr : Option String
  deriving DecidableEq, Repr

/-- pglast ast.ColumnDef: name, type name (opaque) and the inline
constraint list. -/
structure ColumnDef where
  colname : String
  typename : String
  constraints : List Constraint
  deriving DecidableEq, Repr

/-- A table element (an entry of CreateStmt.tableElts): either a column
definition or a top-level constraint. -/
inductive Child
  | col (c : ColumnDef)
  | constr (k : Constraint)
  deriving DecidableEq, Repr

/-- Qualified name: ordered identifier parts; a part is `none` when the
corresponding pglast field is Python None (for example an absent schema
qualifier in a RangeVar). -/
abbrev QName := List (Option String)

/-- The stored table definition: the CreateTable adapter (queries.py:39-59)
over a pglast CreateStmt.  `relation` is the RangeVar (schemaname, relname)
and `children` is the tableElts list. -/
structure CreateStmt where
  schemaname : Option String
  relname : String
  if_not_exists : Bool
  children : List Child
  deriving DecidableEq, Repr

/-- queries.py:10-14 `_range_var_to_tuple`, applied by CreateTable.name. -/
def CreateStmt.name (s : CreateStmt) : QName :=
  [s.schemaname, some s.relname]

/-- queries.py:46-51 CreateTable.conflict_behavior: IGNORE when the
statement has IF NOT EXISTS, otherwise FAIL. -/
def CreateStmt.conflict_behavior (s : CreateStmt) : ConflictBehavior :=
  if s.if_not_exists then ConflictBehavior.ignore else ConflictBehavior.fail

/-- queries.py:32-33 Create.columns: the ColumnDef entries of the child
list, in order. -/
def CreateStmt.columns (s : CreateStmt) : List ColumnDef :=
  s.children.filterMap fun ch =>
    match ch with
    | Child.col c => some c
    | Child.constr _ => none

/-- main.py:56-63 find_by: index and value of the first element satisfying
the predicate, or nothing. -/
def find_by {α : Type} (xs : List α) (p : α → Bool) : Option (Nat × α) :=
  match xs with
  | [] => none
  | x :: rest =>
      if p x then some (0, x)
      else (find_by rest p).map fun ix => (ix.1 + 1, ix.2)

/-- main.py:41-53 removed_by: remove the first element satisfying the
predicate; when none does, a no-op if is_missing_ok, else ValueError.
The source scans with a loop and calls removed(container, index), which is
container[:index] + container[index+1:], that is List.eraseIdx. -/
def removed_by {α : Type} (xs : List α) (is_missing_ok : Bool) (p : α → Bool) :
    Except PyError (List α) :=
  match find_by xs p with
  | some ix => Except.ok (xs.eraseIdx ix.1)
  | none => if is_missing_ok then Except.ok xs else Except.error PyError.valueError

/-- main.py:66-81 _constraint_name suffix table.  The dict lookup default
is the string "None", which is truthy, so the function always returns a
joined name, with suffix "None" for unmapped constraint kinds. -/
def constraintSuffix : ConstrType → String
  | ConstrType.primary => "pkey"
  | ConstrType.unique => "key"
  | ConstrType.exclusion => "excl"
  | ConstrType.identity => "idx"
  | ConstrType.foreign => "fkey"
  | ConstrType.check => "check"
  | _ => "None"

/-- main.py:66-81 _constraint_name: the derived identity of an unnamed
constraint, "_".join([relation_name, column_name, suffix]). -/
def constraint_name (relation_name column_name : String) (constraint_type : ConstrType) : String :=
  relation_name ++ "_" ++ column_name ++ "_" ++ constraintSuffix constraint_type

/-- The Repository rows dictionary (main.py:92): an association list with
dict semantics.  Keys are unique in every state the program constructs. -/
abbrev Repo := List (QName × CreateStmt)

/-- Dict membership test (`name in self.rows`). -/
def Repo.contains : Repo → QName → Bool
  | [], _ => false
  | kv :: rest, n => if kv.1 = n then true else Repo.contains rest n

/-- Dict read (`self.rows[name]`), as an Option: first binding wins. -/
def Repo.lookup : Repo → QName → Option CreateStmt
  | [], _ => none
  | kv :: rest, n => if kv.1 = n then some kv.2 else Repo.lookup rest n

/-- Dict assignment (`self.rows[name] = v`): update the existing binding in
place, else append a new one. -/
def Repo.insert : Repo → QName → CreateStmt → Repo
  | [], n, v => [(n, v)]
  | kv :: rest, n, v =>
      if kv.1 = n then (n, v) :: rest else kv :: Repo.insert rest n v

/-- Dict deletion of a present key: remove the binding. -/
def Repo.erase : Repo → QName → Repo
  | [], _ => []
  | kv :: rest, n => if kv.1 = n then rest else kv :: Repo.erase rest n

/-- The association list represents a Python dict only when its keys are
pairwise distinct. -/
def Repo.wf (r : Repo) : Prop := (r.map Prod.fst).Nodup

/-- The Python value of the expression `statement.conflict_behavior` as it
appears at main.py:98: the attribute lookup yields the bound method object
because the method is never called there.  A bound method compares unequal
to every ConflictBehavior member. -/
inductive PyAttrValue
  | boundMethod
  | enumMember (c : ConflictBehavior)
  deriving DecidableEq, Repr

/-- The scrutinee of the match statement at main.py:98. -/
def CreateStmt.conflict_behavior_attr (_ : CreateStmt) : PyAttrValue :=
  PyAttrValue.boundMethod

/-- main.py:94-104 Repository.create.  The source matches on
`statement.conflict_behavior` without calling it, so the scrutinee is the
bound method object; the value patterns ConflictBehavior.FAIL and
ConflictBehavior.IGNORE (equality tests in a Python match) therefore never
fire, control falls through the match, and the row is overwritten
unconditionally.  Both dead branches are kept to mirror the source. -/
def Repository.create (repo : Repo) (statement : CreateStmt) : Except PyError Repo :=
  if repo.contains statement.name then
    if statement.conflict_behavior_attr = PyAttrValue.enumMember ConflictBehavior.fail then
      Except.error PyError.valueError
    else if statement.conflict_behavior_attr = PyAttrValue.enumMember ConflictBehavior.ignore then
      Except.ok repo
    else
      Except.ok (repo.insert statement.name statement)
  else
    Except.ok (repo.insert statement.name statement)

/-- main.py:200-203 Repository.drop, after the Drop adapter has produced
the name list.  For each name in order: if the name is present or
missing_ok is false, the entry is deleted; `del` on an absent key raises
KeyError, at which point the names already processed stay deleted. -/
def Repository.drop : Repo → List QName → Bool → Repo × Option PyError
  | repo, [], _ => (repo, none)
  | repo, n :: rest, missing_ok =>
      if repo.contains n || !missing_ok then
        if repo.contains n then Repository.drop (repo.erase n) rest missing_ok
        else (repo, some PyError.keyError)
      else Repository.drop repo rest missing_ok

/-- AlterTableCmd (pglast), restricted to the subtypes the source matches
at main.py:118-192; every other subtype is carried by `unrecognized`
with an opaque tag. -/
inductive AlterCmd
  | addColumn (def_ : ColumnDef)
  | dropColumn (name : String) (missing_ok : Bool)
  | addConstraint (def_ : Constraint)
  | dropConstraint (name : String) (missing_ok : Bool)
  | setNotNull (name : String)
  | dropNotNull (name : String) (missing_ok : Bool)
  | setColumnDefault (name : String) (def_ : Option String)
  | unrecognized (tag : String)
  deriving DecidableEq, Repr

/-- True for the commands that reach the catch-all arm at main.py:191-192. -/
def isUnrecognizedCmd : AlterCmd → Bool
  | AlterCmd.unrecognized _ => true
  | _ => false

/-- The AlterTable adapter (queries.py:158-163) over a pglast
AlterTableStmt: the relation RangeVar and the ordered command list. -/
structure AlterStmt where
  schemaname : Option String
  relname : String
  cmds : List AlterCmd
  deriving DecidableEq, Repr

/-- queries.py:162-163 AlterTable.name via _range_var_to_tuple. -/
def AlterStmt.name (st : AlterStmt) : QName :=
  [st.schemaname, some st.relname]

/-- True on a child that is a column named `n`; the membership test used by
AT_DropColumn (main.py:121-127): isinstance ColumnDef and colname match. -/
def isColNamed (n : String) : Child → Bool
  | Child.col c => decide (c.colname = n)
  | Child.constr _ => false

/-- True on a child that is a top-level constraint whose explicit name
equals the target; the predicate of main.py:132-138
(constraint_matches_by_name).  A Python None conname never equals the
target string. -/
def isTopConstraintNamed (target : String) : Child → Bool
  | Child.col _ => false
  | Child.constr k => decide (k.conname = some target)

/-- Models the in-place mutation pattern
`column = find_column_by_name(name); <mutate column>` of
main.py:109-113 and 169-190: rebuild the child list with the first column
child named `n` replaced by the result of `f`; `none` when no column child
carries that name (the source then dereferences Python None).  The first
column named `n` in the filtered columns() list is exactly the first such
child in children order. -/
def mutateFirstCol (n : String) (f : ColumnDef → Except PyError ColumnDef) :
    List Child → Option (Except PyError (List Child))
  | [] => none
  | Child.col c :: rest =>
      if c.colname = n then
        some ((f c).map fun c2 => Child.col c2 :: rest)
      else
        (mutateFirstCol n f rest).map (Except.map fun chs => Child.col c :: chs)
  | Child.constr k :: rest =>
      (mutateFirstCol n f rest).map (Except.map fun chs => Child.constr k :: chs)

/-- The NOT NULL constraint node built at main.py:172-174. -/
def nnConstraint : Constraint :=
  { conname := none, contype := ConstrType.notnull, rawExpr := none }

/-- The DEFAULT constraint node built at main.py:185-189, carrying the raw
expression of the command. -/
def defaultConstraint (e : Option String) : Constraint :=
  { conname := none, contype := ConstrType.defaultV, rawExpr := e }

/-- main.py:169-175 AT_SetNotNull: append a NOT NULL constraint to the
inline list of the named column; AttributeError when the column is absent
(add_column_constraint reads .constraints from Python None). -/
def setNotNullCmd (n : String) (d : CreateStmt) : Except PyError CreateStmt :=
  match mutateFirstCol n
      (fun c => Except.ok { c with constraints := c.constraints ++ [nnConstraint] })
      d.children with
  | none => Except.error PyError.attributeError
  | some r => r.map fun chs => { d with children := chs }

/-- main.py:176-182 AT_DropNotNull: remove the first NOT NULL constraint
from the inline list of the named column via removed_by; AttributeError
when the column is absent, ValueError when no NOT NULL is present and
missing_ok is false. -/
def dropNotNullCmd (n : String) (missing_ok : Bool) (d : CreateStmt) :
    Except PyError CreateStmt :=
  match mutateFirstCol n
      (fun c =>
        (removed_by c.constraints missing_ok
            (fun k => decide (k.contype = ConstrType.notnull))).map
          fun ks => { c with constraints := ks })
      d.children with
  | none => Except.error PyError.attributeError
  | some r => r.map fun chs => { d with children := chs }

/-- main.py:183-190 AT_ColumnDefault: append a DEFAULT constraint carrying
the raw expression to the inline list of the named column; AttributeError
when the column is absent. -/
def setColumnDefaultCmd (n : String) (e : Option String) (d : CreateStmt) :
    Except PyError CreateStmt :=
  match mutateFirstCol n
      (fun c => Except.ok { c with constraints := c.constraints ++ [defaultConstraint e] })
      d.children with
  | none => Except.error PyError.attributeError
  | some r => r.map fun chs => { d with children := chs }

/-- The inline-constraint search loop of main.py:147-163: walk the column
children in order; in the first column owning an inline constraint whose
derived identity equals the target, remove the first such constraint and
stop; `none` when no column matches.  Non-column children and the columns
before the match are kept in place. -/
def dropInlineByDerived (rel target : String) : List Child → Option (List Child)
  | [] => none
  | Child.col c :: rest =>
      match find_by c.constraints
          (fun k => decide (constraint_name rel c.colname k.contype = target)) with
      | some ix =>
          some (Child.col { c with constraints := c.constraints.eraseIdx ix.1 } :: rest)
      | none => (dropInlineByDerived rel target rest).map fun chs => Child.col c :: chs
  | Child.constr k :: rest =>
      (dropInlineByDerived rel target rest).map fun chs => Child.constr k :: chs

/-- main.py:130-168 AT_DropConstraint: first search the children for a
top-level constraint whose explicit name equals the target and remove it;
otherwise run the inline derived-identity search; when nothing was removed
and missing_ok is false, ValueError. -/
def dropConstraintCmd (rel target : String) (missing_ok : Bool) (d : CreateStmt) :
    Except PyError CreateStmt :=
  match find_by d.children (isTopConstraintNamed target) with
  | some ix => Except.ok { d with children := d.children.eraseIdx ix.1 }
  | none =>
      match dropInlineByDerived rel target d.children with
      | some chs => Except.ok { d with children := chs }
      | none =>
          if missing_ok then Except.ok d else Except.error PyError.valueError

/-- One recognized command of the dispatch at main.py:118-190, acting on
the stored definition.  The `unrecognized` arm is never invoked by the
loop, which diverts such commands to the unsupported list first. -/
def applyRecognized (rel : String) (d : CreateStmt) : AlterCmd → Except PyError CreateStmt
  | AlterCmd.addColumn c =>
      Except.ok { d with children := d.children ++ [Child.col c] }
  | AlterCmd.dropColumn n missing_ok =>
      (removed_by d.children missing_ok (isColNamed n)).map
        fun chs => { d with children := chs }
  | AlterCmd.addConstraint k =>
      Except.ok { d with children := d.children ++ [Child.constr k] }
  | AlterCmd.dropConstraint n missing_ok => dropConstraintCmd rel n missing_ok d
  | AlterCmd.setNotNull n => setNotNullCmd n d
  | AlterCmd.dropNotNull n missing_ok => dropNotNullCmd n missing_ok d
  | AlterCmd.setColumnDefault n e => setColumnDefaultCmd n e d
  | AlterCmd.unrecognized _ => Except.ok d

/-- Outcome of a stateful operation that can finish normally, finish and
then raise UnsupportedStatementError carrying a payload, or raise another
exception.  The state component records the in-place mutations performed
before the exception, which Python keeps. -/
inductive Outcome (σ : Type) (π : Type)
  | ok (s : σ)
  | unsup (s : σ) (payload : π)
  | fatal (e : PyError) (s : σ)
  deriving DecidableEq, Repr

/-- The command loop of main.py:115-198: apply each recognized command in
order, collect unrecognized commands into `unsupported`, and at the end
raise UnsupportedStatementError with the collected list when it is
nonempty. -/
def alterLoop (rel : String) : CreateStmt → List AlterCmd → List AlterCmd →
    Outcome CreateStmt (List AlterCmd)
  | d, unsupported, [] =>
      if unsupported.isEmpty then Outcome.ok d else Outcome.unsup d unsupported
  | d, unsupported, c :: rest =>
      if isUnrecognizedCmd c then alterLoop rel d (unsupported ++ [c]) rest
      else
        match applyRecognized rel d c with
        | Except.ok d2 => alterLoop rel d2 unsupported rest
        | Except.error e => Outcome.fatal e d

/-- main.py:106-198 Repository.alter: read the stored definition
(`self.rows[statement.name()]`, KeyError when absent), run the command
loop, and on UnsupportedStatementError re-raise a deep copy of the
statement whose cmds list holds exactly the unrecognized commands.  The
stored definition is the very object in the dict, so its mutations are
visible in the repository in every outcome. -/
def Repository.alter (repo : Repo) (statement : AlterStmt) : Outcome Repo AlterStmt :=
  match repo.lookup statement.name with
  | none => Outcome.fatal PyError.keyError repo
  | some this =>
      match alterLoop statement.relname this [] statement.cmds with
      | Outcome.ok d => Outcome.ok (repo.insert statement.name d)
      | Outcome.unsup d res =>
          Outcome.unsup (repo.insert statement.name d) { statement with cmds := res }
      | Outcome.fatal e d => Outcome.fatal e (repo.insert statement.name d)

/-- Sequential application of ALTER statements (one Schema.execute call per
statement), stopping at the first statement that does not finish
normally. -/
def runAlters : Repo → List AlterStmt → Outcome Repo AlterStmt
  | repo, [] => Outcome.ok repo
  | repo, a :: rest =>
      match Repository.alter repo a with
      | Outcome.ok repo2 => runAlters repo2 rest
      | Outcome.unsup repo2 p => Outcome.unsup repo2 p
      | Outcome.fatal e repo2 => Outcome.fatal e repo2

/-- pglast nodes.ObjectType, restricted to the members main.py:218-225
maps, plus a catch-all for every other member. -/
inductive PgObjectType
  | objectFunction
  | objectIndex
  | objectSchema
  | objectTable
  | objectTrigger
  | objectType
  | objectOther
  deriving DecidableEq, Repr

/-- main.py:206-214 ObjectType enum. -/
inductive ObjType
  | enum
  | function
  | index
  | schema
  | table
  | trigger
  | typ
  | unknown
  deriving DecidableEq, Repr

/-- main.py:216-227 ObjectType.from_object_type: dict lookup with default
ObjectType.UNKNOWN. -/
def ObjectType.from_object_type : PgObjectType → ObjType
  | PgObjectType.objectFunction => ObjType.function
  | PgObjectType.objectIndex => ObjType.index
  | PgObjectType.objectSchema => ObjType.schema
  | PgObjectType.objectTable => ObjType.table
  | PgObjectType.objectTrigger => ObjType.trigger
  | PgObjectType.objectType => ObjType.typ
  | PgObjectType.objectOther => ObjType.unknown

/-- The Schema repositories dictionary (main.py:231-244): one Repository
per object kind; UNKNOWN is deliberately not a key.  The embedding covers
the statement kinds the claims exercise, so every repository stores table
definitions; the other CREATE adapters dispatch identically. -/
structure SchemaState where
  repos : List (ObjType × Repo)
  deriving DecidableEq, Repr

/-- main.py:232-244 Schema.__init__: seven empty repositories, keyed by
every ObjectType member except UNKNOWN. -/
def Schema.init : SchemaState :=
  { repos := [(ObjType.enum, []), (ObjType.function, []), (ObjType.index, []),
              (ObjType.schema, []), (ObjType.table, []), (ObjType.trigger, []),
              (ObjType.typ, [])] }

/-- Dict read `self.repositories[t]`: KeyError when the kind is not a key
(the UNKNOWN bucket). -/
def SchemaState.getRepo (s : SchemaState) (t : ObjType) : Except PyError Repo :=
  match s.repos.find? (fun kv => decide (kv.1 = t)) with
  | some kv => Except.ok kv.2
  | none => Except.error PyError.keyError

/-- Write back the repository of a kind after its in-place mutation. -/
def setReposList : List (ObjType × Repo) → ObjType → Repo → List (ObjType × Repo)
  | [], _, _ => []
  | kv :: rest, t, r => if kv.1 = t then (t, r) :: rest else kv :: setReposList rest t r

/-- State update corresponding to the in-place mutation of one
Repository. -/
def SchemaState.setRepo (s : SchemaState) (t : ObjType) (r : Repo) : SchemaState :=
  { s with repos := setReposList s.repos t r }

/-- One object reference of a DropStmt (queries.py:173-182): the shapes the
adapter recognizes, plus a catch-all for every other shape. -/
inductive DropObject
  | pairOfStrings (a b : String)
  | typeName (parts : List String)
  | objectWithArgs (objname : List String)
  | otherShape (tag : String)
  deriving DecidableEq, Repr

/-- The per-object arm of Drop.names: an unrecognized shape raises
TypeError. -/
def dropObjectName : DropObject → Except PyError QName
  | DropObject.pairOfStrings a b => Except.ok [some a, some b]
  | DropObject.typeName parts => Except.ok (parts.map some)
  | DropObject.objectWithArgs objname => Except.ok (objname.map some)
  | DropObject.otherShape _ => Except.error PyError.typeError

/-- queries.py:170-184 Drop.names: normalize every object reference, in
order; the whole list is built before Repository.drop runs any
deletion. -/
def Drop.names (objects : List DropObject) : Except PyError (List QName) :=
  objects.mapM dropObjectName

/-- The statement union routed by Schema.execute (main.py:246-288),
restricted to the kinds the claims exercise; `other` stands for every
statement kind with no match arm, which the catch-all at main.py:287-288
raises as UnsupportedStatementError. -/
inductive Statement
  | createTable (s : CreateStmt)
  | alterTable (objtype : PgObjectType) (st : AlterStmt)
  | dropStmt (removeType : PgObjectType) (objects : List DropObject) (missing_ok : Bool)
  | deleteStmt
  | updateStmt
  | other (tag : String)
  deriving DecidableEq, Repr

/-- The statement carried by an UnsupportedStatementError: either the
deep-copied ALTER statement holding only the unrecognized commands
(main.py:194-198) or the raw unmodeled statement (main.py:287-288). -/
inductive UnsupPayload
  | alterResidual (st : AlterStmt)
  | raw (st : Statement)
  deriving DecidableEq, Repr

/-- main.py:246-288 Schema.execute: route the statement to the repository
of its kind.  Exceptions raised by the repositories, including
UnsupportedStatementError, propagate to the caller; the state component of
each outcome records the in-place mutations already performed. -/
def Schema.execute (s : SchemaState) (statement : Statement) : Outcome SchemaState UnsupPayload :=
  match statement with
  | Statement.createTable c =>
      match s.getRepo ObjType.table with
      | Except.error e => Outcome.fatal e s
      | Except.ok r =>
          match Repository.create r c with
          | Except.error e => Outcome.fatal e s
          | Except.ok r2 => Outcome.ok (s.setRepo ObjType.table r2)
  | Statement.alterTable objtype st =>
      match s.getRepo (ObjectType.from_object_type objtype) with
      | Except.error e => Outcome.fatal e s
      | Except.ok r =>
          match Repository.alter r st with
          | Outcome.ok r2 =>
              Outcome.ok (s.setRepo (ObjectType.from_object_type objtype) r2)
          | Outcome.unsup r2 res =>
              Outcome.unsup (s.setRepo (ObjectType.from_object_type objtype) r2)
                (UnsupPayload.alterResidual res)
          | Outcome.fatal e r2 =>
              Outcome.fatal e (s.setRepo (ObjectType.from_object_type objtype) r2)
  | Statement.dropStmt removeType objects missing_ok =>
      match s.getRepo (ObjectType.from_object_type removeType) with
      | Except.error e => Outcome.fatal e s
      | Except.ok r =>
          match Drop.names objects with
          | Except.error e => Outcome.fatal e s
          | Except.ok names =>
              match Repository.drop r names missing_ok with
              | (r2, none) =>
                  Outcome.ok (s.setRepo (ObjectType.from_object_type removeType) r2)
              | (r2, some e) =>
                  Outcome.fatal e (s.setRepo (ObjectType.from_object_type removeType) r2)
  | Statement.deleteStmt => Outcome.ok s
  | Statement.updateStmt => Outcome.ok s
  | Statement.other _ => Outcome.unsup s (UnsupPayload.raw statement)

/-- The driver loop body of main.py:342-346: call Schema.execute inside a
try block; an UnsupportedStatementError is caught and its statement
appended to the skipped list; every other exception propagates and aborts
the run. -/
def driverStep (acc : SchemaState × List UnsupPayload) (st : Statement) :
    Except PyError (SchemaState × List UnsupPayload) :=
  match Schema.execute acc.1 st with
  | Outcome.ok s2 => Except.ok (s2, acc.2)
  | Outcome.unsup s2 p => Except.ok (s2, acc.2 ++ [p])
  | Outcome.fatal e _ => Except.error e

/-- True exactly on a normal return of Schema.execute. -/
def Outcome.isOk {σ π : Type} : Outcome σ π → Bool
  | Outcome.ok _ => true
  | _ => false

/-- Python str.split with separator "__" on the character list of a
filename, scanning left to right (main.py:320 file.split).  The
accumulator holds the current fragment reversed. -/
def splitDunder (cur : List Char) : List Char → List (List Char)
  | '_' :: '_' :: rest => cur.reverse :: splitDunder [] rest
  | c :: rest => splitDunder (c :: cur) rest
  | [] => [cur.reverse]

/-- Decimal digit value of a character, or nothing. -/
def digitVal (c : Char) : Option Nat :=
  if 48 ≤ c.toNat ∧ c.toNat ≤ 57 then some (c.toNat - 48) else none

/-- Accumulating decimal parser. -/
def parseNatAux (acc : Nat) : List Char → Option Nat
  | [] => some acc
  | c :: rest =>
      match digitVal c with
      | some d => parseNatAux (acc * 10 + d) rest
      | none => none

/-- Python int() on a string of digits: nothing (ValueError) on the empty
string or on a non-digit; migration prefixes carry no sign or blanks. -/
def parseNatDigits : List Char → Option Nat
  | [] => none
  | l => parseNatAux 0 l

/-- The sort key of main.py:322: int(x[0][1:]) where x = file.split("__"),
that is the first fragment with its FIRST CHARACTER REMOVED, parsed as an
integer. -/
def migrationKey (file : String) : Option Nat :=
  match splitDunder [] file.toList with
  | tok :: _ => parseNatDigits (tok.drop 1)
  | [] => none

/-- Stable insertion of a keyed element: it goes before the first element
whose key is not smaller, hence after every earlier element with an equal
key, matching the stability of the Python list sort. -/
def insertByKey (x : Nat × String) : List (Nat × String) → List (Nat × String)
  | [] => [x]
  | y :: ys => if x.1 ≤ y.1 then x :: y :: ys else y :: insertByKey x ys

/-- Stable sort by key.  A stable sort is determined by the key order, so
this insertion sort returns exactly what the Python stable sort does. -/
def sortByKey : List (Nat × String) → List (Nat × String)
  | [] => []
  | x :: xs => insertByKey x (sortByKey xs)

/-- main.py:319-324 _sort_migration_files: split each name on "__", sort
by int(x[0][1:]), re-join.  Joining the split parts with "__" restores the
original name, so the function sorts the names by migrationKey; a name
whose key does not parse raises ValueError. -/
def sortMigrationFiles (files : List String) : Except PyError (List String) :=
  match files.mapM (fun f => (migrationKey f).map fun k => (k, f)) with
  | none => Except.error PyError.valueError
  | some keyed => Except.ok ((sortByKey keyed).map Prod.snd)

instance {ε α : Type} [DecidableEq ε] [DecidableEq α] : DecidableEq (Except ε α) := fun a b =>
  match a, b with
  | Except.ok x, Except.ok y =>
      if h : x = y then isTrue (by rw [h]) else isFalse (by intro hc; cases hc; exact h rfl)
  | Except.error x, Except.error y =>
      if h : x = y then isTrue (by rw [h]) else isFalse (by intro hc; cases hc; exact h rfl)
  | Except.ok _, Except.error _ => isFalse (by intro hc; cases hc)
  | Except.error _, Except.ok _ => isFalse (by intro hc; cases hc)

/-- True on a column child owning at least one inline constraint whose
derived identity equals the target; matches the predicate of the inline
search loop at main.py:149-158. -/
def hasInlineDerivedMatch (rel target : String) : Child → Bool
  | Child.col c =>
      c.constraints.any fun k => decide (constraint_name rel c.colname k.contype = target)
  | Child.constr _ => false

/-- First CREATE of the C1 scenario: CREATE TABLE public.accounts without
IF NOT EXISTS. -/
def c1_first : CreateStmt :=
  { schemaname := some "public", relname := "accounts", if_not_exists := false,
    children := [Child.col { colname := "id", typename := "int4", constraints := [] }] }

/-- Second CREATE of the C1 scenario: the same qualified name, no IF NOT
EXISTS, a different column list. -/
def c1_second : CreateStmt :=
  { c1_first with
    children := [Child.col { colname := "balance", typename := "numeric", constraints := [] }] }

/-- First CREATE of the C2 scenario: CREATE TABLE IF NOT EXISTS
public.events. -/
def c2_first : CreateStmt :=
  { schemaname := some "public", relname := "events", if_not_exists := true,
    children := [Child.col { colname := "id", typename := "int4", constraints := [] }] }

/-- Second CREATE of the C2 scenario: same name, IF NOT EXISTS, different
column list. -/
def c2_second : CreateStmt :=
  { c2_first with
    children := [Child.col { colname := "payload", typename := "jsonb", constraints := [] }] }

/-- The table of the C4 scenario before the mixed ALTER statement. -/
def c4_base : CreateStmt :=
  { schemaname := some "public", relname := "t", if_not_exists := false, children := [] }

/-- The column added by the recognized sub-command of the C4 scenario. -/
def c4_col : ColumnDef := { colname := "y", typename := "text", constraints := [] }

/-- The mixed ALTER statement of the C4 scenario: one AddColumn followed by
one unrecognized sub-command. -/
def c4_stmt : AlterStmt :=
  { schemaname := some "public", relname := "t",
    cmds := [AlterCmd.addColumn c4_col, AlterCmd.unrecognized "AT_AttachPartition"] }

/-- The inline primary-key constraint of the C5 scenario; it carries no
explicit name. -/
def c5_k : Constraint := { conname := none, contype := ConstrType.primary, rawExpr := none }

/-- The column of the C5 scenario, holding the unnamed inline primary
key. -/
def c5_idcol : ColumnDef := { colname := "id", typename := "int4", constraints := [c5_k] }

/-- The table of the C5 scenario. -/
def c5_table : CreateStmt :=
  { schemaname := none, relname := "t", if_not_exists := false,
    children := [Child.col c5_idcol] }

/-- An unmodeled statement kind for the C6 scenario (a statement with no
match arm in Schema.execute). -/
def c6_stmt : Statement := Statement.other "CreatePolicyStmt"

/-- Names and rows of the C9 scenario: a and b exist, c was never
created. -/
def q9a : QName := [some "public", some "a"]

def q9b : QName := [some "public", some "b"]

def q9c : QName := [some "public", some "c"]

def t9a : CreateStmt :=
  { schemaname := some "public", relname := "a", if_not_exists := false, children := [] }

def t9b : CreateStmt :=
  { schemaname := some "public", relname := "b", if_not_exists := false, children := [] }

def repo9 : Repo := [(q9a, t9a), (q9b, t9b)]

/-- The table of the C10 scenario: a single column named id, so the name
zz matches nothing. -/
def c10_table : CreateStmt :=
  { schemaname := some "public", relname := "t", if_not_exists := false,
    children := [Child.col { colname := "id", typename := "int4", constraints := [] }] }

def c10_repo : Repo := [(c10_table.name, c10_table)]

/-- ALTER TABLE public.t ALTER COLUMN zz SET NOT NULL, naming an absent
column. -/
def c10_stmt : AlterStmt :=
  { schemaname := some "public", relname := "t", cmds := [AlterCmd.setNotNull "zz"] }

lemma Repo.contains_iff_mem (r : Repo) (n : QName) :
    r.contains n = true ↔ n ∈ r.map Prod.fst := by
  induction r with
  | nil => simp [Repo.contains]
  | cons kv rest ih =>
      by_cases h : kv.1 = n
      · simp [Repo.contains, h]
      · simp [Repo.contains, h, ih]
        intro hc
        exact absurd hc.symm h

lemma Repo.erase_keys_sublist (r : Repo) (n : QName) :
    ((r.erase n).map Prod.fst).Sublist (r.map Prod.fst) := by
  induction r with
  | nil => simp [Repo.erase]
  | cons kv rest ih =>
      by_cases h : kv.1 = n
      · simp only [Repo.erase, if_pos h, List.map_cons]
        exact (List.sublist_cons_self _ _)
      · simp only [Repo.erase, if_neg h, List.map_cons]
        exact ih.cons₂ _

lemma Repo.wf_erase {r : Repo} (n : QName) (h : r.wf) : (r.erase n).wf :=
  List.Nodup.sublist (Repo.erase_keys_sublist r n) h

lemma Repo.contains_erase_false {r : Repo} {k : QName} (n : QName)
    (h : r.contains k = false) : (r.erase n).contains k = false := by
  by_contra hc
  have h1 : (r.erase n).contains k = true := by
    cases hh : (r.erase n).contains k
    · exact absurd hh hc
    · rfl
  have h2 : k ∈ (r.erase n).map Prod.fst := (Repo.contains_iff_mem _ _).1 h1
  have h3 : k ∈ r.map Prod.fst := (Repo.erase_keys_sublist r n).mem h2
  have h4 : r.contains k = true := (Repo.contains_iff_mem _ _).2 h3
  rw [h] at h4
  exact Bool.false_ne_true h4

lemma Repo.contains_erase_self {r : Repo} (n : QName) (h : r.wf) :
    (r.erase n).contains n = false := by
  induction r with
  | nil => rfl
  | cons kv rest ih =>
      rw [Repo.wf, List.map_cons, List.nodup_cons] at h
      by_cases he : kv.1 = n
      · simp only [Repo.erase, if_pos he]
        have hnot : n ∉ rest.map Prod.fst := he ▸ h.1
        cases hc : Repo.contains rest n
        · rfl
        · exact absurd ((Repo.contains_iff_mem _ _).1 hc) hnot
      · simp only [Repo.erase, if_neg he, Repo.contains, if_neg he]
        exact ih h.2

lemma Repo.contains_erase_of_ne {r : Repo} {k n : QName} (h : k ≠ n) :
    (r.erase n).contains k = r.contains k := by
  induction r with
  | nil => rfl
  | cons kv rest ih =>
      by_cases he : kv.1 = n
      · have hkk : ¬ kv.1 = k := by
          rw [he]
          exact fun hc => h hc.symm
        simp only [Repo.erase, if_pos he, Repo.contains, if_neg hkk]
      · by_cases hk : kv.1 = k
        · simp only [Repo.erase, if_neg he, Repo.contains, if_pos hk]
        · simp only [Repo.erase, if_neg he, Repo.contains, if_neg hk]
          exact ih

lemma Repo.contains_foldl_erase_false {k : QName} :
    ∀ (l : List QName) (r : Repo), r.contains k = false →
      (l.foldl Repo.erase r).contains k = false := by
  intro l
  induction l with
  | nil => intro r h; simpa using h
  | cons n rest ih =>
      intro r h
      simp only [List.foldl_cons]
      exact ih (r.erase n) (Repo.contains_erase_false n h)

lemma find_by_eq_none {α : Type} (p : α → Bool) :
    ∀ xs : List α, find_by xs p = none ↔ ∀ x ∈ xs, p x = false := by
  intro xs
  induction xs with
  | nil => simp [find_by]
  | cons x rest ih =>
      cases hp : p x
      · simp only [find_by, hp, Bool.false_eq_true, if_false, Option.map_eq_none']
        rw [ih]
        constructor
        · intro h y hy
          cases hy with
          | head => exact hp
          | tail _ hmem => exact h y hmem
        · intro h y hy
          exact h y (List.mem_cons_of_mem _ hy)
      · simp only [find_by, hp, if_true]
        constructor
        · intro h; cases h
        · intro h
          have := h x (List.mem_cons_self _ _)
          rw [hp] at this
          cases this

/-- C1: evaluation of the code at the failing input.  A second CREATE of
an existing qualified name under Fail conflict behavior does NOT raise:
because main.py:98 matches on the uncalled bound method, Repository.create
returns normally and OVERWRITES the stored definition, both for a
different second statement and for the identical one. -/
theorem c1_create_fail_is_dead_code :
    c1_second.conflict_behavior = ConflictBehavior.fail
    ∧ Repository.create [(c1_first.name, c1_first)] c1_second
        = Except.ok [(c1_first.name, c1_second)]
    ∧ Repository.create [(c1_first.name, c1_first)] c1_first
        = Except.ok [(c1_first.name, c1_first)]
    ∧ c1_second ≠ c1_first := by decide

/-- C2: evaluation of the code at the failing input.  A second CREATE of
an existing qualified name under Ignore conflict behavior is NOT a no-op:
because main.py:98 matches on the uncalled bound method, the IGNORE arm
never fires and the stored definition is overwritten by the new one. -/
theorem c2_create_ignore_is_dead_code :
    c2_second.conflict_behavior = ConflictBehavior.ignore
    ∧ Repository.create [(c2_first.name, c2_first)] c2_second
        = Except.ok [(c2_first.name, c2_second)]
    ∧ c2_second ≠ c2_first := by decide

/-- C3: for every repository, qualified name and missing_ok flag,
Repository.drop on that single name removes the entry when the name is
present, is a no-op when the name is absent and missing_ok is true, and
raises (KeyError, the MissingObject condition) exactly when the name is
absent and missing_ok is false. -/
theorem c3_drop_contract (repo : Repo) (n : QName) (missing_ok : Bool) :
    Repository.drop repo [n] missing_ok =
      if repo.contains n then (repo.erase n, none)
      else if missing_ok then (repo, none)
      else (repo, some PyError.keyError) := by
  cases hc : repo.contains n
  · cases missing_ok
    · simp [Repository.drop, hc]
    · simp [Repository.drop, hc]
  · cases missing_ok
    · simp [Repository.drop, hc]
    · simp [Repository.drop, hc]

/-- C7: evaluation of the sort at the failing input.  The sort key of
main.py:322 is int(x[0][1:]), the numeric token with its first character
removed, so the key of 0999__a is 999 while the key of 1000__b is 0, and
the file prefixed 1000 is ordered BEFORE the one prefixed 0999 even though
the numeric tokens order the other way (999 < 1000). -/
theorem c7_sort_key_drops_first_character :
    migrationKey "0999__a" = some 999
    ∧ migrationKey "1000__b" = some 0
    ∧ sortMigrationFiles ["0999__a", "1000__b"] = Except.ok ["1000__b", "0999__a"]
    ∧ parseNatDigits "0999".toList = some 999
    ∧ parseNatDigits "1000".toList = some 1000 := by decide

/-- C9: Repository.drop over a multi-name list is not atomic.  When every
name of a prefix is present and the next name is absent while missing_ok
is false, the loop deletes the prefix names one by one, then raises
KeyError at the absent name; the resulting repository is the input with
exactly the prefix erased, so the earlier deletions survive the error. -/
theorem c9_drop_not_atomic (repo : Repo) (pre : List QName) (m : QName)
    (rest : List QName) (hwf : repo.wf) (hnd : pre.Nodup)
    (hpre : ∀ n ∈ pre, repo.contains n = true) (hm : repo.contains m = false) :
    Repository.drop repo (pre ++ m :: rest) false
        = (pre.foldl Repo.erase repo, some PyError.keyError)
    ∧ ∀ n ∈ pre, (pre.foldl Repo.erase repo).contains n = false := by
  induction pre generalizing repo with
  | nil =>
      refine ⟨?_, by simp⟩
      simp [Repository.drop, hm]
  | cons p ptail ih =>
      have hp : repo.contains p = true := hpre p (List.mem_cons_self _ _)
      have hnd2 : ptail.Nodup := (List.nodup_cons.1 hnd).2
      have hpnot : p ∉ ptail := (List.nodup_cons.1 hnd).1
      have hwf2 : (repo.erase p).wf := Repo.wf_erase p hwf
      have hpre2 : ∀ n ∈ ptail, (repo.erase p).contains n = true := by
        intro n hn
        have hne : n ≠ p := fun hc => hpnot (hc ▸ hn)
        rw [Repo.contains_erase_of_ne hne]
        exact hpre n (List.mem_cons_of_mem _ hn)
      have hm2 : (repo.erase p).contains m = false := Repo.contains_erase_false p hm
      have ihh := ih (repo.erase p) hwf2 hnd2 hpre2 hm2
      constructor
      · have hstep :
            Repository.drop repo ((p :: ptail) ++ m :: rest) false
              = Repository.drop (repo.erase p) (ptail ++ m :: rest) false := by
          simp [Repository.drop, hp]
        rw [hstep, ihh.1]
        simp
      · intro n hn
        cases hn with
        | head =>
            simp only [List.foldl_cons]
            exact Repo.contains_foldl_erase_false ptail (repo.erase p)
              (Repo.contains_erase_self p hwf)
        | tail _ hmem =>
            simp only [List.foldl_cons]
            exact ihh.2 n hmem

/-- Witness for C9 at a concrete repository: a and b exist, the DROP names
a then the never-created c without missing_ok; a is deleted before the
error and stays deleted. -/
theorem c9_drop_not_atomic_witness :
    Repository.drop repo9 [q9a, q9c] false
        = ([q9a].foldl Repo.erase repo9, some PyError.keyError)
    ∧ ∀ n ∈ [q9a], ([q9a].foldl Repo.erase repo9).contains n = false :=
  c9_drop_not_atomic repo9 [q9a] q9c [] (by simp only [Repo.wf]; decide) (by decide)
    (by decide) (by decide)

lemma alterLoop_unsup_spec (rel : String) :
    ∀ (cmds : List AlterCmd) (d : CreateStmt) (unsup0 : List AlterCmd)
      (d2 : CreateStmt) (res : List AlterCmd),
      alterLoop rel d unsup0 cmds = Outcome.unsup d2 res →
      res = unsup0 ++ cmds.filter isUnrecognizedCmd
      ∧ alterLoop rel d [] (cmds.filter fun c => !isUnrecognizedCmd c) = Outcome.ok d2 := by
  intro cmds
  induction cmds with
  | nil =>
      intro d unsup0 d2 res h
      cases unsup0 with
      | nil => simp [alterLoop] at h
      | cons u us =>
          simp only [alterLoop, List.isEmpty_cons, Bool.false_eq_true, if_false] at h
          obtain ⟨hd, hres⟩ := Outcome.unsup.inj h
          subst hd
          subst hres
          exact ⟨by simp, by simp [alterLoop]⟩
  | cons c rest ih =>
      intro d unsup0 d2 res h
      cases hu : isUnrecognizedCmd c
      · rw [alterLoop, if_neg (by simp [hu])] at h
        cases ha : applyRecognized rel d c with
        | ok d3 =>
            rw [ha] at h
            obtain ⟨hres, hloop⟩ := ih d3 unsup0 d2 res h
            refine ⟨by simpa [hu] using hres, ?_⟩
            rw [List.filter_cons_of_pos (by simp [hu]), alterLoop,
              if_neg (by simp [hu]), ha]
            exact hloop
        | error e =>
            rw [ha] at h
            cases h
      · rw [alterLoop, if_pos (by simp [hu])] at h
        obtain ⟨hres, hloop⟩ := ih d (unsup0 ++ [c]) d2 res h
        constructor
        · rw [hres, List.filter_cons_of_pos (by simp [hu])]
          simp
        · rw [List.filter_cons_of_neg (by simp [hu])]
          exact hloop

/-- C4: when Repository.alter raises UnsupportedStatementError, the
residual statement it carries is the input statement with its command list
replaced by exactly the unrecognized sub-commands in their original order,
and the repository it leaves behind is exactly the one produced by
applying the recognized sub-commands alone (running the statement with
only its recognized commands finishes normally in the same state). -/
theorem c4_partial_alter (repo : Repo) (st : AlterStmt) (repo2 : Repo)
    (resSt : AlterStmt) (h : Repository.alter repo st = Outcome.unsup repo2 resSt) :
    resSt = { st with cmds := st.cmds.filter isUnrecognizedCmd }
    ∧ Repository.alter repo { st with cmds := st.cmds.filter fun c => !isUnrecognizedCmd c }
        = Outcome.ok repo2 := by
  cases hl : repo.lookup st.name with
  | none =>
      simp only [Repository.alter, hl] at h
      cases h
  | some this =>
      simp only [Repository.alter, hl] at h
      cases hloop : alterLoop st.relname this [] st.cmds with
      | ok d => rw [hloop] at h; cases h
      | fatal e d => rw [hloop] at h; cases h
      | unsup d res =>
          rw [hloop] at h
          obtain ⟨hrepo, hres⟩ := Outcome.unsup.inj h
          obtain ⟨hres2, hloop2⟩ := alterLoop_unsup_spec st.relname st.cmds this [] d res hloop
          constructor
          · rw [← hres, hres2]
            simp
          · have hname : ({ st with cmds := st.cmds.filter fun c => !isUnrecognizedCmd c } : AlterStmt).name = st.name := rfl
            simp only [Repository.alter, hname, hl, hloop2, hrepo]

/-- Witness for C4: an ALTER mixing one AddColumn with one unrecognized
sub-command on a concrete table. -/
theorem c4_partial_alter_witness :
    ({ c4_stmt with cmds := [AlterCmd.unrecognized "AT_AttachPartition"] } : AlterStmt)
        = { c4_stmt with cmds := c4_stmt.cmds.filter isUnrecognizedCmd }
    ∧ Repository.alter [(c4_base.name, c4_base)]
          { c4_stmt with cmds := c4_stmt.cmds.filter fun c => !isUnrecognizedCmd c }
        = Outcome.ok [(c4_base.name, { c4_base with children := [Child.col c4_col] })] :=
  c4_partial_alter [(c4_base.name, c4_base)] c4_stmt
    [(c4_base.name, { c4_base with children := [Child.col c4_col] })]
    { c4_stmt with cmds := [AlterCmd.unrecognized "AT_AttachPartition"] } (by decide)

lemma alter_single_addColumn (s : CreateStmt) (c : ColumnDef) :
    Repository.alter [(s.name, s)]
        { schemaname := s.schemaname, relname := s.relname, cmds := [AlterCmd.addColumn c] }
      = Outcome.ok [(s.name, { s with children := s.children ++ [Child.col c] })] := by
  have hname : (AlterStmt.mk s.schemaname s.relname [AlterCmd.addColumn c]).name
      = s.name := rfl
  have hl : Repo.lookup [(s.name, s)] s.name = some s := by
    simp [Repo.lookup]
  simp only [Repository.alter, hname, hl, alterLoop, isUnrecognizedCmd,
    Bool.false_eq_true, if_false, applyRecognized, List.isEmpty_nil, if_true,
    Repo.insert, if_pos]

lemma runAlters_addColumns :
    ∀ (cols : List ColumnDef) (s : CreateStmt),
      runAlters [(s.name, s)]
          (cols.map fun c =>
            { schemaname := s.schemaname, relname := s.relname,
              cmds := [AlterCmd.addColumn c] })
        = Outcome.ok [(s.name, { s with children := s.children ++ cols.map Child.col })] := by
  intro cols
  induction cols with
  | nil =>
      intro s
      simp [runAlters]
  | cons c rest ih =>
      intro s
      simp only [List.map_cons, runAlters, alter_single_addColumn s c]
      have hstep := ih { s with children := s.children ++ [Child.col c] }
      have hn : (CreateStmt.mk s.schemaname s.relname s.if_not_exists
          (s.children ++ [Child.col c])).name = s.name := rfl
      simp only at hstep
      rw [hn] at hstep
      rw [hstep]
      simp [List.append_assoc]

/-- C8: a CREATE TABLE inserted into an empty repository, followed by one
ALTER with a single AddColumn sub-command per added column, yields a
stored definition whose column list is the original columns followed by
the added columns, in application order. -/
theorem c8_addColumn_appends (s : CreateStmt) (cols : List ColumnDef) :
    Repository.create [] s = Except.ok [(s.name, s)]
    ∧ runAlters [(s.name, s)]
          (cols.map fun c =>
            { schemaname := s.schemaname, relname := s.relname,
              cmds := [AlterCmd.addColumn c] })
        = Outcome.ok [(s.name, { s with children := s.children ++ cols.map Child.col })]
    ∧ ({ s with children := s.children ++ cols.map Child.col } : CreateStmt).columns
        = s.columns ++ cols := by
  refine ⟨?_, runAlters_addColumns cols s, ?_⟩
  · simp [Repository.create, Repo.contains, Repo.insert]
  · simp only [CreateStmt.columns, List.filterMap_append, List.filterMap_map]
    have : (cols.filterMap fun c => some c) = cols := by
      induction cols with
      | nil => rfl
      | cons x xs ihx => simp [List.filterMap_cons, ihx]
    rw [show ((fun ch => match ch with
          | Child.col c => some c
          | Child.constr _ => none) ∘ Child.col) = fun c => some c from rfl]
    rw [this]

/-- Counterexample to C6 as stated: on a statement of an unmodeled kind,
Schema.execute does NOT return normally with a captured record; it signals
the UnsupportedStatement condition to its caller (the match catch-all at
main.py:287-288 raises it). -/
theorem c6_execute_raises_unsupported :
    (Schema.execute Schema.init c6_stmt).isOk = false
    ∧ Schema.execute Schema.init c6_stmt
        = Outcome.unsup Schema.init (UnsupPayload.raw c6_stmt) := by decide

/-- C6 amended: the UnsupportedStatement condition escapes Schema.execute,
and it is the migration driver loop (main.py:342-346) that converts it
into a captured record: whenever Schema.execute signals unsupported, the
driver step returns normally with the carried statement appended to the
skipped list. -/
theorem c6_driver_captures_unsupported (s : SchemaState) (skipped : List UnsupPayload)
    (st : Statement) (s2 : SchemaState) (p : UnsupPayload)
    (h : Schema.execute s st = Outcome.unsup s2 p) :
    driverStep (s, skipped) st = Except.ok (s2, skipped ++ [p]) := by
  simp only [driverStep, h]

/-- Witness for the amended C6 at the concrete unmodeled statement. -/
theorem c6_driver_captures_unsupported_witness :
    driverStep (Schema.init, []) c6_stmt
      = Except.ok (Schema.init, [] ++ [UnsupPayload.raw c6_stmt]) :=
  c6_driver_captures_unsupported Schema.init [] c6_stmt Schema.init
    (UnsupPayload.raw c6_stmt) (by decide)

lemma find_by_none_iff_any_false {α : Type} (p : α → Bool) (xs : List α) :
    find_by xs p = none ↔ xs.any p = false := by
  rw [find_by_eq_none, List.any_eq_false]
  constructor
  · intro h x hx
    rw [h x hx]
    exact Bool.false_ne_true
  · intro h x hx
    cases hp : p x
    · rfl
    · exact absurd hp (h x hx)

lemma dropInline_none_iff (rel target : String) :
    ∀ chs : List Child, dropInlineByDerived rel target chs = none ↔
      ∀ ch ∈ chs, hasInlineDerivedMatch rel target ch = false := by
  intro chs
  induction chs with
  | nil => simp [dropInlineByDerived]
  | cons ch rest ih =>
      cases ch with
      | col c =>
          cases hf : find_by c.constraints
              (fun k => decide (constraint_name rel c.colname k.contype = target)) with
          | some ix =>
              have hany : c.constraints.any
                  (fun k => decide (constraint_name rel c.colname k.contype = target)) = true := by
                cases ha : c.constraints.any
                    (fun k => decide (constraint_name rel c.colname k.contype = target))
                · rw [← find_by_none_iff_any_false] at ha
                  rw [ha] at hf
                  cases hf
                · rfl
              simp only [dropInlineByDerived, hf]
              constructor
              · intro h; cases h
              · intro h
                have := h (Child.col c) (List.mem_cons_self _ _)
                rw [hasInlineDerivedMatch, hany] at this
                cases this
          | none =>
              have hany : hasInlineDerivedMatch rel target (Child.col c) = false := by
                rw [hasInlineDerivedMatch, ← find_by_none_iff_any_false]
                exact hf
              simp only [dropInlineByDerived, hf, Option.map_eq_none']
              rw [ih]
              constructor
              · intro h x hx
                cases hx with
                | head => exact hany
                | tail _ hmem => exact h x hmem
              · intro h x hx
                exact h x (List.mem_cons_of_mem _ hx)
      | constr k =>
          simp only [dropInlineByDerived, Option.map_eq_none']
          rw [ih]
          constructor
          · intro h x hx
            cases hx with
            | head => rfl
            | tail _ hmem => exact h x hmem
          · intro h x hx
            exact h x (List.mem_cons_of_mem _ hx)

lemma dropInline_found (rel target : String) (c : ColumnDef) (j : Nat) (k : Constraint)
    (hf : find_by c.constraints
        (fun k2 => decide (constraint_name rel c.colname k2.contype = target)) = some (j, k)) :
    ∀ (pre post : List Child), (∀ ch ∈ pre, hasInlineDerivedMatch rel target ch = false) →
      dropInlineByDerived rel target (pre ++ Child.col c :: post)
        = some (pre ++ Child.col { c with constraints := c.constraints.eraseIdx j } :: post) := by
  intro pre
  induction pre with
  | nil =>
      intro post _
      simp only [List.nil_append, dropInlineByDerived, hf]
  | cons ch rest ih =>
      intro post hpre
      have hch : hasInlineDerivedMatch rel target ch = false :=
        hpre ch (List.mem_cons_self _ _)
      have hrest : ∀ x ∈ rest, hasInlineDerivedMatch rel target x = false :=
        fun x hx => hpre x (List.mem_cons_of_mem _ hx)
      cases ch with
      | col c0 =>
          have hf0 : find_by c0.constraints
              (fun k2 => decide (constraint_name rel c0.colname k2.contype = target)) = none := by
            rw [find_by_none_iff_any_false]
            rw [hasInlineDerivedMatch] at hch
            exact hch
          simp only [List.cons_append, dropInlineByDerived, hf0, List.append_eq,
            ih post hrest, Option.map_some']
      | constr k0 =>
          simp only [List.cons_append, dropInlineByDerived, List.append_eq,
            ih post hrest, Option.map_some']

lemma mutateFirstCol_eq_none (n : String) (f : ColumnDef → Except PyError ColumnDef) :
    ∀ chs : List Child, (∀ ch ∈ chs, isColNamed n ch = false) →
      mutateFirstCol n f chs = none := by
  intro chs
  induction chs with
  | nil => intro _; rfl
  | cons ch rest ih =>
      intro h
      have hrest := fun x hx => h x (List.mem_cons_of_mem _ hx)
      cases ch with
      | col c =>
          have hc : isColNamed n (Child.col c) = false := h _ (List.mem_cons_self _ _)
          have hcn : ¬ c.colname = n := by
            rw [isColNamed] at hc
            exact of_decide_eq_false hc
          simp only [mutateFirstCol, if_neg hcn, ih hrest, Option.map_none']
      | constr k =>
          simp only [mutateFirstCol, ih hrest, Option.map_none']

lemma mutateFirstCol_found (n : String) (f : ColumnDef → Except PyError ColumnDef)
    (c : ColumnDef) (hc : c.colname = n) :
    ∀ (pre post : List Child), (∀ ch ∈ pre, isColNamed n ch = false) →
      mutateFirstCol n f (pre ++ Child.col c :: post)
        = some ((f c).map fun c2 => pre ++ Child.col c2 :: post) := by
  intro pre
  induction pre with
  | nil =>
      intro post _
      simp only [List.nil_append, mutateFirstCol, if_pos hc]
  | cons ch rest ih =>
      intro post hpre
      have hrest : ∀ x ∈ rest, isColNamed n x = false :=
        fun x hx => hpre x (List.mem_cons_of_mem _ hx)
      cases ch with
      | col c0 =>
          have hc0 : ¬ c0.colname = n := by
            have := hpre (Child.col c0) (List.mem_cons_self _ _)
            rw [isColNamed] at this
            exact of_decide_eq_false this
          cases hfc : f c with
          | error e =>
              simp only [List.cons_append, mutateFirstCol, if_neg hc0, List.append_eq,
                ih post hrest, Option.map_some', hfc, Except.map]
          | ok v =>
              simp only [List.cons_append, mutateFirstCol, if_neg hc0, List.append_eq,
                ih post hrest, Option.map_some', hfc, Except.map]
      | constr k0 =>
          cases hfc : f c with
          | error e =>
              simp only [List.cons_append, mutateFirstCol, List.append_eq,
                ih post hrest, Option.map_some', hfc, Except.map]
          | ok v =>
              simp only [List.cons_append, mutateFirstCol, List.append_eq,
                ih post hrest, Option.map_some', hfc, Except.map]

/-- C5: the DropConstraint handler searches the top-level constraint
children for an explicit-name match first and removes the first one found;
only when none matches does it walk the columns and remove, in the first
column owning one, the first inline constraint whose derived identity
constraint_name(relation, column, kind) equals the target; it raises
ValueError exactly when no top-level name and no derived identity matches
and missing_ok is false. -/
theorem c5_dropConstraint_contract (rel target : String) (missing_ok : Bool) (d : CreateStmt) :
    (∀ ix : Nat × Child, find_by d.children (isTopConstraintNamed target) = some ix →
        dropConstraintCmd rel target missing_ok d
          = Except.ok { d with children := d.children.eraseIdx ix.1 })
    ∧ (find_by d.children (isTopConstraintNamed target) = none →
        ∀ (pre : List Child) (c : ColumnDef) (post : List Child) (j : Nat) (k : Constraint),
          d.children = pre ++ Child.col c :: post →
          (∀ ch ∈ pre, hasInlineDerivedMatch rel target ch = false) →
          find_by c.constraints
              (fun k2 => decide (constraint_name rel c.colname k2.contype = target)) = some (j, k) →
          dropConstraintCmd rel target missing_ok d
            = Except.ok { d with children := pre ++ Child.col { c with constraints := c.constraints.eraseIdx j } :: post })
    ∧ (dropConstraintCmd rel target missing_ok d = Except.error PyError.valueError ↔
        ((∀ ch ∈ d.children, isTopConstraintNamed target ch = false)
          ∧ (∀ ch ∈ d.children, hasInlineDerivedMatch rel target ch = false)
          ∧ missing_ok = false)) := by
  refine ⟨?_, ?_, ?_⟩
  · intro ix h
    simp only [dropConstraintCmd, h]
  · intro hnone pre c post j k hdec hpre hf
    have hdrop := dropInline_found rel target c j k hf pre post hpre
    rw [hdec] at hnone
    simp only [dropConstraintCmd, hdec, hnone, hdrop]
  · constructor
    · intro herr
      cases hTop : find_by d.children (isTopConstraintNamed target) with
      | some ix =>
          simp only [dropConstraintCmd, hTop] at herr
          cases herr
      | none =>
          cases hIn : dropInlineByDerived rel target d.children with
          | some chs =>
              simp only [dropConstraintCmd, hTop, hIn] at herr
              cases herr
          | none =>
              refine ⟨(find_by_eq_none _ _).1 hTop,
                (dropInline_none_iff rel target d.children).1 hIn, ?_⟩
              cases missing_ok
              · rfl
              · simp only [dropConstraintCmd, hTop, hIn, if_true] at herr
                cases herr
    · rintro ⟨hTopAll, hInAll, hmok⟩
      have hTop : find_by d.children (isTopConstraintNamed target) = none :=
        (find_by_eq_none _ _).2 hTopAll
      have hIn : dropInlineByDerived rel target d.children = none :=
        (dropInline_none_iff rel target d.children).2 hInAll
      subst hmok
      simp [dropConstraintCmd, hTop, hIn]

/-- Witness for C5 at a concrete table: an unnamed inline primary key on
column id of table t is removed by DROP CONSTRAINT t_id_pkey, its derived
identity, although no CREATE ever named it. -/
theorem c5_dropConstraint_contract_witness :
    dropConstraintCmd "t" "t_id_pkey" false c5_table
      = Except.ok { c5_table with children := [Child.col { c5_idcol with constraints := [] }] } :=
  (c5_dropConstraint_contract "t" "t_id_pkey" false c5_table).2.1 (by decide)
    [] c5_idcol [] 0 c5_k rfl (by simp) (by decide)

/-- C10: a SetNotNull, DropNotNull or SetColumnDefault sub-command naming
a column absent from the target definition makes Repository.alter raise
AttributeError (the command is never silently skipped); when the named
column exists, the failing lookup branch is unreachable and the command
appends to or removes from exactly that columns inline constraint list
(the first column child carrying the name), leaving every other child
untouched. -/
theorem c10_column_command_contract (repo : Repo) (st : AlterStmt) (d : CreateStmt)
    (n : String) (mok : Bool) (e : Option String) :
    (repo.lookup st.name = some d →
      (∀ ch ∈ d.children, isColNamed n ch = false) →
      (st.cmds = [AlterCmd.setNotNull n] ∨ st.cmds = [AlterCmd.dropNotNull n mok]
        ∨ st.cmds = [AlterCmd.setColumnDefault n e]) →
      Repository.alter repo st = Outcome.fatal PyError.attributeError (repo.insert st.name d))
    ∧ (∀ (pre : List Child) (c : ColumnDef) (post : List Child),
        d.children = pre ++ Child.col c :: post → c.colname = n →
        (∀ ch ∈ pre, isColNamed n ch = false) →
        setNotNullCmd n d = Except.ok { d with children := pre ++ Child.col { c with constraints := c.constraints ++ [nnConstraint] } :: post }
        ∧ setColumnDefaultCmd n e d = Except.ok { d with children := pre ++ Child.col { c with constraints := c.constraints ++ [defaultConstraint e] } :: post }
        ∧ (∀ (j : Nat) (k : Constraint),
            find_by c.constraints (fun k2 => decide (k2.contype = ConstrType.notnull)) = some (j, k) →
            dropNotNullCmd n mok d = Except.ok { d with children := pre ++ Child.col { c with constraints := c.constraints.eraseIdx j } :: post })
        ∧ (find_by c.constraints (fun k2 => decide (k2.contype = ConstrType.notnull)) = none →
            dropNotNullCmd n mok d = if mok then Except.ok d else Except.error PyError.valueError)) := by
  constructor
  · intro hl hcols hcmds
    have hsetnn : setNotNullCmd n d = Except.error PyError.attributeError := by
      simp only [setNotNullCmd,
        mutateFirstCol_eq_none n
          (fun c => Except.ok { c with constraints := c.constraints ++ [nnConstraint] })
          d.children hcols]
    have hdropnn : dropNotNullCmd n mok d = Except.error PyError.attributeError := by
      simp only [dropNotNullCmd,
        mutateFirstCol_eq_none n
          (fun c => (removed_by c.constraints mok
              (fun k => decide (k.contype = ConstrType.notnull))).map
            fun ks => { c with constraints := ks })
          d.children hcols]
    have hsetdef : setColumnDefaultCmd n e d = Except.error PyError.attributeError := by
      simp only [setColumnDefaultCmd,
        mutateFirstCol_eq_none n
          (fun c => Except.ok { c with constraints := c.constraints ++ [defaultConstraint e] })
          d.children hcols]
    rcases hcmds with h1 | h1 | h1
    · simp only [Repository.alter, hl, h1, alterLoop, isUnrecognizedCmd,
        Bool.false_eq_true, if_false, applyRecognized, hsetnn]
    · simp only [Repository.alter, hl, h1, alterLoop, isUnrecognizedCmd,
        Bool.false_eq_true, if_false, applyRecognized, hdropnn]
    · simp only [Repository.alter, hl, h1, alterLoop, isUnrecognizedCmd,
        Bool.false_eq_true, if_false, applyRecognized, hsetdef]
  · intro pre c post hdec hcn hpre
    refine ⟨?_, ?_, ?_, ?_⟩
    · simp only [setNotNullCmd, hdec,
        mutateFirstCol_found n
          (fun c => Except.ok { c with constraints := c.constraints ++ [nnConstraint] })
          c hcn pre post hpre, Except.map]
    · simp only [setColumnDefaultCmd, hdec,
        mutateFirstCol_found n
          (fun c => Except.ok { c with constraints := c.constraints ++ [defaultConstraint e] })
          c hcn pre post hpre, Except.map]
    · intro j k hf
      simp only [dropNotNullCmd, hdec]
      rw [mutateFirstCol_found n
          (fun c => (removed_by c.constraints mok
              (fun k => decide (k.contype = ConstrType.notnull))).map
            fun ks => { c with constraints := ks })
          c hcn pre post hpre]
      simp only [removed_by, hf, Except.map]
    · intro hf
      cases mok with
      | true =>
          simp only [dropNotNullCmd, hdec]
          rw [mutateFirstCol_found n
              (fun c => (removed_by c.constraints true
                  (fun k => decide (k.contype = ConstrType.notnull))).map
                fun ks => { c with constraints := ks })
              c hcn pre post hpre]
          simp only [removed_by, hf, if_true, Except.map]
          rw [show ({ c with constraints := c.constraints } : ColumnDef) = c from rfl]
          rw [← hdec]
      | false =>
          simp only [dropNotNullCmd, hdec]
          rw [mutateFirstCol_found n
              (fun c => (removed_by c.constraints false
                  (fun k => decide (k.contype = ConstrType.notnull))).map
                fun ks => { c with constraints := ks })
              c hcn pre post hpre]
          simp only [removed_by, hf, Bool.false_eq_true, if_false, Except.map]

/-- Witness for C10 at a concrete table and statement: ALTER COLUMN zz SET
NOT NULL on a table whose only column is id raises AttributeError through
Repository.alter. -/
theorem c10_column_command_contract_witness :
    Repository.alter c10_repo c10_stmt
      = Outcome.fatal PyError.attributeError (c10_repo.insert c10_stmt.name c10_table) :=
  (c10_column_command_contract c10_repo c10_stmt c10_table "zz" false none).1
    (by decide) (by decide) (Or.inl rfl)
